import Mathlib

/-!
Shallow embedding of the `mkqcb` tool (src/main.rs): a command-line program
that creates one out-of-tree CMake build directory per (compiler, build type,
sanitizer) configuration and invokes `cmake` in each.

Modelling choices:
* Paths are lists of components (`List String`); the process working
  directory is threaded explicitly.
* Filesystem and subprocess effects are recorded in an event trace; their
  outcomes (directory-creation success, file contents, cmake exit status)
  are supplied by an `Env` record.
* Rust `.unwrap()` on a failed operation is modelled as the `panicked`
  outcome; a Rust panic terminates the process with exit code 101.
* `getopts` argument parsing (an external library; the spec treats it as a
  standard-library concern) is modelled from its documented behaviour:
  long flags `--name`, combined short flags `-h`, `--` terminator, free
  arguments collected in order, unrecognized options are errors.
-/

/-- The build-system enumeration from src/main.rs (`enum BuildSystem`). -/
inductive BuildSystem where
  | Make
  | Ninja
deriving DecidableEq, Repr

/-- `BuildSystem::as_cmake_arg` from src/main.rs. -/
def BuildSystem.as_cmake_arg : BuildSystem → String
  | .Make => "-GCodeBlocks - Unix Makefiles"
  | .Ninja => "-GCodeBlocks - Ninja"

/-- The compiler enumeration from src/main.rs (`enum Compiler`). -/
inductive Compiler where
  | Gcc
  | Clang
deriving DecidableEq, Repr

/-- The `Display` implementation for `Compiler` in src/main.rs. -/
def Compiler.display : Compiler → String
  | .Gcc => "GCC"
  | .Clang => "Clang"

/-- `Compiler::as_cmake_args` from src/main.rs. -/
def Compiler.as_cmake_args : Compiler → List String
  | .Gcc => ["-DCMAKE_C_COMPILER=gcc", "-DCMAKE_CXX_COMPILER=g++"]
  | .Clang => ["-DCMAKE_C_COMPILER=clang", "-DCMAKE_CXX_COMPILER=clang++"]

/-- The build-type enumeration from src/main.rs (`enum BuildType`). -/
inductive BuildType where
  | Debug
  | Release
deriving DecidableEq, Repr

/-- `BuildType::as_cmake_arg` from src/main.rs. -/
def BuildType.as_cmake_arg : BuildType → String
  | .Debug => "-DCMAKE_BUILD_TYPE=Debug"
  | .Release => "-DCMAKE_BUILD_TYPE=Release"

/-- `struct Config` from src/main.rs. -/
structure Config where
  name : String
  compiler : Compiler
  build_type : BuildType
  cmake_args : List String
deriving DecidableEq, Repr

/-- The `config` constructor function from src/main.rs:
`name: format!("\x7b\x7d-\x7b\x7d", comp, name)`. -/
def config (name : String) (comp : Compiler) (build_type : BuildType)
    (args : List String) : Config :=
  { name := comp.display ++ "-" ++ name
    compiler := comp
    build_type := build_type
    cmake_args := args }

/-- The literal marker substring searched for in CMakeLists.txt
(`"$\x7bSANITIZE\x7d"` in src/main.rs). -/
def sanitizeMarker : String := "$\x7bSANITIZE\x7d"

/-- Substring search, modelling Rust `str::find(pat).is_some()`:
true iff `pat` occurs contiguously inside `s`. -/
def containsSub (s pat : String) : Bool :=
  (List.range (s.data.length + 1)).any fun i => pat.data.isPrefixOf (s.data.drop i)

/-- `struct CMakeListsProperties` from src/main.rs. -/
structure CMakeListsProperties where
  has_sanitize : Bool
deriving DecidableEq, Repr

/-- `parse_cmakelists_txt` from src/main.rs. The file system is abstracted:
the argument is the result of opening and fully reading
`projectDir/CMakeLists.txt` — `.ok text` on success, `.error cause` when the
open or read fails.  On success, `has_sanitize` is set iff the literal marker
occurs in the text (`s.find("$\x7bSANITIZE\x7d")`). -/
def parse_cmakelists_txt (fileRead : Except String String) :
    Except String CMakeListsProperties :=
  match fileRead with
  | .error e => .error e
  | .ok s => .ok { has_sanitize := containsSub s sanitizeMarker }

/-- The four base configurations built unconditionally in `run`
(src/main.rs, the `vec![...]` at the start of the configuration list). -/
def baseConfigs : List Config :=
  [ config "Debug" .Gcc .Debug []
  , config "Release" .Gcc .Release []
  , config "Debug" .Clang .Debug []
  , config "Release" .Clang .Release [] ]

/-- The three sanitizer configurations appended by `run` when the project
supports them (src/main.rs, the `configs.extend(vec![...])` call). -/
def sanitizeConfigs : List Config :=
  [ config "Asan" .Clang .Debug ["-DSANITIZE=address"]
  , config "Ubsan" .Clang .Debug ["-DSANITIZE=undefined"]
  , config "Tsan" .Clang .Debug ["-DSANITIZE=thread"] ]

/-- The configuration enumeration performed inline in `run` (src/main.rs):
the base list, extended with the sanitizer configurations iff
`props.has_sanitize && !matches.opt_present("no-sanitize")`. -/
def enumerateConfigs (props : CMakeListsProperties) (noSanitize : Bool) :
    List Config :=
  if props.has_sanitize && !noSanitize then baseConfigs ++ sanitizeConfigs
  else baseConfigs

/-! ## Argument parsing (getopts model)

`run` registers three flag options — `--no-sanitize`, `--no-ninja`,
`-h`/`--help` — and collects free arguments.  The getopts crate is external
to the repository; this model follows its documented behaviour for
flag-only option sets. -/

/-- Parse failures of the getopts model (`getopts::Fail`). -/
inductive GetoptsError where
  | unrecognizedOption (name : String)
  | unexpectedArgument (name : String)
deriving DecidableEq, Repr

/-- Rendering of `getopts::Fail` via its `Display` implementation. -/
def GetoptsError.message : GetoptsError → String
  | .unrecognizedOption n => "Unrecognized option: \x27" ++ n ++ "\x27."
  | .unexpectedArgument n => "Option \x27" ++ n ++ "\x27 does not take an argument."

/-- The result of a successful `opts.parse` (`getopts::Matches`),
restricted to the three flags `run` registers and the free arguments. -/
structure Matches where
  help : Bool
  noSanitize : Bool
  noNinja : Bool
  free : List String
deriving DecidableEq, Repr

/-- The empty `Matches` accumulator. -/
def initMatches : Matches :=
  { help := false, noSanitize := false, noNinja := false, free := [] }

/-- Split a character list at the first `=`, if any (the getopts treatment
of `--name=value`). -/
def splitAtEq : List Char → Option (List Char × List Char)
  | [] => none
  | '=' :: rest => some ([], rest)
  | c :: rest =>
      match splitAtEq rest with
      | none => none
      | some (n, v) => some (c :: n, v)

/-- Handle one long option body (the text after `--`, split at `=`). -/
def longFlag (body : String) (m : Matches) : Except GetoptsError Matches :=
  match splitAtEq body.data with
  | none =>
      if body = "no-sanitize" then .ok { m with noSanitize := true }
      else if body = "no-ninja" then .ok { m with noNinja := true }
      else if body = "help" then .ok { m with help := true }
      else .error (.unrecognizedOption body)
  | some (n, _) =>
      let name := String.mk n
      if name = "no-sanitize" || name = "no-ninja" || name = "help" then
        .error (.unexpectedArgument name)
      else .error (.unrecognizedOption name)

/-- Handle a group of short options (the characters after a single `-`). -/
def shortFlags : List Char → Matches → Except GetoptsError Matches
  | [], m => .ok m
  | c :: cs, m =>
      if c = 'h' then shortFlags cs { m with help := true }
      else .error (.unrecognizedOption (String.singleton c))

/-- `opts.parse(args)` for the option set registered by `run`: long flags
`--name`, combined short flags `-h`, a bare `--` terminator after which
everything is free, a bare `-` kept as a free argument, and free arguments
collected in order. -/
def parseArgs : List String → Matches → Except GetoptsError Matches
  | [], m => .ok m
  | a :: rest, m =>
      match a.data with
      | '-' :: '-' :: [] => .ok { m with free := m.free ++ rest }
      | '-' :: '-' :: c :: cs =>
          match longFlag (String.mk (c :: cs)) m with
          | .ok m2 => parseArgs rest m2
          | .error e => .error e
      | '-' :: c :: cs =>
          match shortFlags (c :: cs) m with
          | .ok m2 => parseArgs rest m2
          | .error e => .error e
      | _ => parseArgs rest { m with free := m.free ++ [a] }

/-! ## Effect traces and the program model

`run` performs filesystem reads, directory creations, working-directory
changes and `cmake` subprocess invocations.  Each is recorded as an event;
the outcomes the environment chooses (file contents, creation success,
cmake exit status) live in `Env`. -/

/-- One observable side effect of the program. -/
inductive Event where
  | getMetadata (path : List String)
  | openRead (path : List String)
  | checkExists (path : List String)
  | createDir (path : List String)
  | setCurrentDir (path : List String)
  | runCmake (argv : List String)
  | printUsage
  | printProgress (name : String)
deriving DecidableEq, Repr

/-- Events that only read the filesystem (reads and existence checks). -/
def Event.isReadOnly : Event → Bool
  | .getMetadata _ => true
  | .openRead _ => true
  | .checkExists _ => true
  | _ => false

/-- Is this event a cmake subprocess invocation? -/
def Event.isRunCmake : Event → Bool
  | .runCmake _ => true
  | _ => false

/-- How the process terminates: a normal exit (code and optional message
printed to standard error by `main`), or a Rust panic from a failed
`.unwrap()`. -/
inductive Outcome where
  | exited (code : Int) (msg : Option String)
  | panicked
deriving DecidableEq, Repr

/-- The process exit code of an outcome; a Rust panic in `main` terminates
the process with code 101. -/
def Outcome.exitCode : Outcome → Int
  | .exited c _ => c
  | .panicked => 101

/-- The environment a run executes against: the argument list (after the
program name), the initial working directory, and the outcomes of each
fallible external operation. -/
structure Env where
  args : List String
  cwd0 : List String
  /-- Result of `std::fs::metadata(&proj_dir)`: ok, or the error's text. -/
  projMetadata : Except String Unit
  /-- Result of opening and fully reading `proj_dir/CMakeLists.txt`. -/
  cmakeLists : Except String String
  /-- Whether the `build-<arg>` directory already exists. -/
  buildDirExists : Bool
  /-- Whether `fs::create_dir` succeeds at a given path. -/
  createDirOk : List String → Bool
  /-- Whether the n-th cmake invocation (0-indexed) exits with status 0. -/
  cmakeSuccess : Nat → Bool

/-- Join path components into the string handed to cmake
(`proj_dir.to_str()`). -/
def pathStr (p : List String) : String :=
  String.intercalate "/" p

/-- The full argv of one cmake invocation, assembled exactly as in
`create_config`: program, project dir, build-system selector, the two
compiler args, the build-type arg, then the config's extra args. -/
def cmakeInvocation (conf : Config) (build_system : BuildSystem)
    (project_dir : String) : List String :=
  "cmake" :: project_dir :: build_system.as_cmake_arg ::
    (conf.compiler.as_cmake_args ++ [conf.build_type.as_cmake_arg] ++ conf.cmake_args)

/-- `create_config` from src/main.rs.  Saves the current directory, creates
the subdirectory `conf.name`, changes into it, runs cmake, and changes back
to the parent unconditionally.  Returns `(some success, events, cwd)`, or
`(none, events, cwd)` when `fs::create_dir(&conf.name).unwrap()` panics. -/
def create_config (conf : Config) (build_system : BuildSystem)
    (project_dir : String) (createDirOk : List String → Bool)
    (cmakeStatusOk : Bool) (cwd : List String) :
    Option Bool × List Event × List String :=
  let parent_dir := cwd
  let sub := cwd ++ [conf.name]
  if createDirOk sub then
    (some cmakeStatusOk,
     [Event.createDir sub, Event.setCurrentDir sub,
      Event.runCmake (cmakeInvocation conf build_system project_dir),
      Event.setCurrentDir parent_dir],
     parent_dir)
  else
    (none, [Event.createDir sub], cwd)

/-- Result of the configuration loop: its events, the final working
directory, and whether a `.unwrap()` panicked during it. -/
structure LoopOut where
  events : List Event
  cwd : List String
  panicked : Bool
deriving DecidableEq, Repr

/-- The `for c in configs` loop at the end of `run`: print a progress line,
call `create_config`, and break as soon as it reports failure.  `k` is the
index of the next cmake invocation. -/
def runLoop (build_system : BuildSystem) (project_dir : String)
    (createDirOk : List String → Bool) (cmakeSuccess : Nat → Bool) :
    List Config → List String → Nat → LoopOut
  | [], cwd, _ => ⟨[], cwd, false⟩
  | c :: rest, cwd, k =>
      let pre := [Event.printProgress c.name]
      match create_config c build_system project_dir createDirOk (cmakeSuccess k) cwd with
      | (none, evs, cwd2) => ⟨pre ++ evs, cwd2, true⟩
      | (some success, evs, cwd2) =>
          if success then
            let restOut := runLoop build_system project_dir createDirOk cmakeSuccess rest cwd2 (k + 1)
            ⟨pre ++ evs ++ restOut.events, restOut.cwd, restOut.panicked⟩
          else ⟨pre ++ evs, cwd2, false⟩

/-- Rust `{:?}` rendering of a path: the string in double quotes. -/
def quoted (s : String) : String := "\"" ++ s ++ "\""

/-- The message for a failed `std::fs::metadata(&proj_dir)` lookup. -/
def metadataErrMsg (projDir : List String) (cause : String) : String :=
  "Error while trying to look up directory " ++ quoted (pathStr projDir) ++ ": " ++ cause

/-- The message for a failed open/read of CMakeLists.txt. -/
def cmakeListsErrMsg (projDir : List String) (cause : String) : String :=
  "Failed to open CMakeLists.txt in " ++ quoted (pathStr projDir) ++ ": " ++ cause

/-- The message when the build directory already exists. -/
def buildDirExistsMsg (buildDirName : String) : String :=
  "The build directory (" ++ quoted buildDirName ++ ") already exists. Delete it first."

/-- Everything `run` does after `opts.parse`, as a function of the parse
result: the help/missing-argument usage paths, the project-directory
metadata lookup, the CMakeLists.txt inspection, the build-directory
existence check and creation, the configuration enumeration, and the
configuration loop.  Returns the outcome, the event trace, and the final
working directory. -/
def runAfterParse (env : Env) (parsed : Except GetoptsError Matches) :
    Outcome × List Event × List String :=
  match parsed with
  | .error e => (.exited 1 (some e.message), [], env.cwd0)
  | .ok m =>
    if m.help then (.exited 1 none, [Event.printUsage], env.cwd0)
    else
      match m.free.head? with
      | none => (.exited 1 none, [Event.printUsage], env.cwd0)
      | some arg =>
        let proj_dir := env.cwd0 ++ [arg]
        let ev1 := [Event.getMetadata proj_dir]
        match env.projMetadata with
        | .error e => (.exited 1 (some (metadataErrMsg proj_dir e)), ev1, env.cwd0)
        | .ok _ =>
          let ev2 := ev1 ++ [Event.openRead (proj_dir ++ ["CMakeLists.txt"])]
          match parse_cmakelists_txt env.cmakeLists with
          | .error e => (.exited 1 (some (cmakeListsErrMsg proj_dir e)), ev2, env.cwd0)
          | .ok props =>
            let buildDirName := "build-" ++ arg
            let build_dir := env.cwd0 ++ [buildDirName]
            let ev3 := ev2 ++ [Event.checkExists build_dir]
            if env.buildDirExists then
              (.exited 1 (some (buildDirExistsMsg buildDirName)), ev3, env.cwd0)
            else if env.createDirOk build_dir then
              let ev4 := ev3 ++ [Event.createDir build_dir, Event.setCurrentDir build_dir]
              let configs := enumerateConfigs props m.noSanitize
              let build_system := if m.noNinja then BuildSystem.Make else BuildSystem.Ninja
              let out := runLoop build_system (pathStr proj_dir) env.createDirOk
                env.cmakeSuccess configs build_dir 0
              if out.panicked then (.panicked, ev4 ++ out.events, out.cwd)
              else (.exited 0 none, ev4 ++ out.events, out.cwd)
            else
              (.panicked, ev3 ++ [Event.createDir build_dir], env.cwd0)

/-- The whole of `run` (and `main`'s handling of its result): parse the
arguments, then proceed as `runAfterParse`. -/
def runModel (env : Env) : Outcome × List Event × List String :=
  runAfterParse env (parseArgs env.args initMatches)

/-- Agreement up to the build-system selector: two cmake invocations whose
argv lists have the same length and the same entries everywhere except
position 2, which holds the Ninja selector on the left and the Make
selector on the right; all other events must be equal. -/
def eventAgrees : Event → Event → Prop
  | .runCmake a1, .runCmake a2 =>
      (a1.length = a2.length ∧ ∀ i, i ≠ 2 → a1[i]? = a2[i]?) ∧
      a1[2]? = some BuildSystem.Ninja.as_cmake_arg ∧
      a2[2]? = some BuildSystem.Make.as_cmake_arg
  | e1, e2 => e1 = e2

/-- A benign concrete environment used to instantiate the theorems:
project directory `p` exists, its CMakeLists.txt is empty, the build
directory is fresh, every directory creation and every cmake invocation
succeeds. -/
def envBase : Env :=
  { args := ["p"]
    cwd0 := []
    projMetadata := .ok ()
    cmakeLists := .ok ""
    buildDirExists := false
    createDirOk := fun _ => true
    cmakeSuccess := fun _ => true }

/-! ## Substring search -/

/-- `containsSub s pat` is true exactly when `pat` occurs contiguously in
`s`, i.e. when the character list of `s` splits as `l ++ pat.data ++ r`. -/
theorem containsSub_iff (s pat : String) :
    containsSub s pat = true ↔ ∃ l r, s.data = l ++ pat.data ++ r := by
  unfold containsSub
  rw [List.any_eq_true]
  constructor
  · rintro ⟨i, hi, hpre⟩
    rw [List.mem_range] at hi
    obtain ⟨r, hr⟩ := List.isPrefixOf_iff_prefix.mp hpre
    refine ⟨s.data.take i, r, ?_⟩
    calc s.data = s.data.take i ++ s.data.drop i := (List.take_append_drop i s.data).symm
    _ = s.data.take i ++ (pat.data ++ r) := by rw [hr]
    _ = _ := by rw [List.append_assoc]
  · rintro ⟨l, r, h⟩
    refine ⟨l.length, ?_, ?_⟩
    · rw [List.mem_range, h]
      simp [List.length_append]
      omega
    · rw [h, List.append_assoc, List.drop_left]
      exact List.isPrefixOf_iff_prefix.mpr ⟨r, rfl⟩

/-- A string obtained by wrapping `pat` between two others contains it. -/
theorem containsSub_of_parts (a pat b : String) :
    containsSub (a ++ pat ++ b) pat = true := by
  rw [containsSub_iff]
  exact ⟨a.data, b.data, by simp⟩

/-! ## C1: the configuration enumeration -/

/-- C1: for every build-script text and option set, the enumeration starts
with exactly (GCC, Debug), (GCC, Release), (Clang, Debug), (Clang, Release)
— each with no extra arguments — and appends the Asan, Ubsan, Tsan records
(all Clang, Debug, with the corresponding `-DSANITIZE=` argument) in that
order iff the script contains `$\x7bSANITIZE\x7d` and `--no-sanitize` was
not passed; the result has exactly 7 records in that case and exactly 4
otherwise. -/
theorem enumerateConfigs_spec (content : String) (noSanitize : Bool) :
    (enumerateConfigs ⟨containsSub content sanitizeMarker⟩ noSanitize).take 4 =
      [ ⟨"GCC-Debug", .Gcc, .Debug, []⟩, ⟨"GCC-Release", .Gcc, .Release, []⟩,
        ⟨"Clang-Debug", .Clang, .Debug, []⟩, ⟨"Clang-Release", .Clang, .Release, []⟩ ] ∧
    (containsSub content sanitizeMarker = true ∧ noSanitize = false →
      enumerateConfigs ⟨containsSub content sanitizeMarker⟩ noSanitize =
        [ ⟨"GCC-Debug", .Gcc, .Debug, []⟩, ⟨"GCC-Release", .Gcc, .Release, []⟩,
          ⟨"Clang-Debug", .Clang, .Debug, []⟩, ⟨"Clang-Release", .Clang, .Release, []⟩,
          ⟨"Clang-Asan", .Clang, .Debug, ["-DSANITIZE=address"]⟩,
          ⟨"Clang-Ubsan", .Clang, .Debug, ["-DSANITIZE=undefined"]⟩,
          ⟨"Clang-Tsan", .Clang, .Debug, ["-DSANITIZE=thread"]⟩ ] ∧
      (enumerateConfigs ⟨containsSub content sanitizeMarker⟩ noSanitize).length = 7) ∧
    (¬(containsSub content sanitizeMarker = true ∧ noSanitize = false) →
      enumerateConfigs ⟨containsSub content sanitizeMarker⟩ noSanitize =
        [ ⟨"GCC-Debug", .Gcc, .Debug, []⟩, ⟨"GCC-Release", .Gcc, .Release, []⟩,
          ⟨"Clang-Debug", .Clang, .Debug, []⟩, ⟨"Clang-Release", .Clang, .Release, []⟩ ] ∧
      (enumerateConfigs ⟨containsSub content sanitizeMarker⟩ noSanitize).length = 4) := by
  cases h : containsSub content sanitizeMarker <;> cases noSanitize <;>
    refine ⟨?_, ?_, ?_⟩ <;>
      simp [enumerateConfigs, baseConfigs, sanitizeConfigs, config, Compiler.display]

/-- Instantiation of C1 at a script that contains the marker and at one
that does not. -/
theorem enumerateConfigs_spec_witness :
    (enumerateConfigs ⟨containsSub "x$\x7bSANITIZE\x7dy" sanitizeMarker⟩ false).length = 7 ∧
    (enumerateConfigs ⟨containsSub "xy" sanitizeMarker⟩ false).length = 4 := by
  constructor
  · exact ((enumerateConfigs_spec "x$\x7bSANITIZE\x7dy" false).2.1 (by decide)).2
  · exact ((enumerateConfigs_spec "xy" false).2.2 (by decide)).2

/-! ## C9: configuration names and subdirectory names -/

/-- C9: the record built by `config` is named `DisplayName(compiler)-suffix`
exactly, and the first side effect of `create_config` on such a record is
creating a subdirectory of that exact name under the current directory. -/
theorem config_name_and_subdir (s : String) (c : Compiler) (bt : BuildType)
    (args : List String) (bs : BuildSystem) (p : String)
    (createDirOk : List String → Bool) (st : Bool) (cwd : List String) :
    (config s c bt args).name = c.display ++ "-" ++ s ∧
    (create_config (config s c bt args) bs p createDirOk st cwd).2.1.head? =
      some (Event.createDir (cwd ++ [c.display ++ "-" ++ s])) := by
  refine ⟨rfl, ?_⟩
  unfold create_config
  dsimp only
  split <;> rfl

/-! ## C10: extra positional arguments are ignored -/

/-- C10: `run` reads only the first free argument (`matches.free.get(0)`),
so any run whose parse produced extra positionals behaves exactly as if
only the first had been given; and a list of non-dash tokens parses
successfully, all of them collected as free arguments, with no error. -/
theorem extra_positionals_ignored :
    (∀ (env : Env) (help noSan noNin : Bool) (x : String) (rest : List String),
        runAfterParse env (.ok ⟨help, noSan, noNin, x :: rest⟩) =
          runAfterParse env (.ok ⟨help, noSan, noNin, [x]⟩)) ∧
    (∀ (xs : List String) (m : Matches), (∀ x ∈ xs, x.data.head? ≠ some '-') →
        parseArgs xs m = .ok { m with free := m.free ++ xs }) := by
  constructor
  · intro env help noSan noNin x rest
    rfl
  · intro xs
    induction xs with
    | nil => intro m h; simp [parseArgs]
    | cons a xs ih =>
        intro m h
        have ha : a.data.head? ≠ some '-' := h a (by simp)
        simp only [parseArgs]
        split
        · rename_i heq; rw [heq] at ha; simp at ha
        · rename_i c cs heq; rw [heq] at ha; simp at ha
        · rename_i c cs heq; rw [heq] at ha; simp at ha
        · rw [ih _ (fun x hx => h x (by simp [hx]))]
          simp

/-- Instantiation of C10: with two positionals `a b`, parsing succeeds with
both collected, and the run is the one `a` alone would produce. -/
theorem extra_positionals_ignored_witness :
    parseArgs ["a", "b"] initMatches = .ok ⟨false, false, false, ["a", "b"]⟩ ∧
    runAfterParse envBase (.ok ⟨false, false, false, ["a", "b"]⟩) =
      runAfterParse envBase (.ok ⟨false, false, false, ["a"]⟩) := by
  constructor
  · have h := extra_positionals_ignored.2 ["a", "b"] initMatches (by decide)
    simpa [initMatches] using h
  · exact extra_positionals_ignored.1 envBase false false false "a" ["b"]

/-! ## C5: help and missing positional coincide -/

/-- C5: whenever the arguments parse successfully and either the help flag
is present or there is no positional argument, the observable result is the
same: exit code 1, no error message, the usage text as the only output, no
other effect. -/
theorem help_and_missing_arg_identical (env : Env) (m : Matches)
    (hp : parseArgs env.args initMatches = .ok m)
    (hm : m.help = true ∨ m.free = []) :
    runModel env = (.exited 1 none, [Event.printUsage], env.cwd0) := by
  unfold runModel
  rw [hp]
  unfold runAfterParse
  rcases hm with h | h
  · simp [h]
  · cases hh : m.help <;> simp [hh, h]

/-- Instantiation of C5 at `-h`, at `--help` combined with the other flags,
and at a flag-only argument list with the positional missing: all three are
the identical usage exit. -/
theorem help_and_missing_arg_identical_witness :
    runModel { envBase with args := ["-h", "p"] } =
      (.exited 1 none, [Event.printUsage], []) ∧
    runModel { envBase with args := ["--no-sanitize", "--no-ninja", "--help", "p"] } =
      (.exited 1 none, [Event.printUsage], []) ∧
    runModel { envBase with args := ["--no-sanitize", "--no-ninja"] } =
      (.exited 1 none, [Event.printUsage], []) := by
  refine ⟨?_, ?_, ?_⟩
  · exact help_and_missing_arg_identical _ ⟨true, false, false, ["p"]⟩ rfl (Or.inl rfl)
  · exact help_and_missing_arg_identical _ ⟨true, true, true, ["p"]⟩ rfl (Or.inl rfl)
  · exact help_and_missing_arg_identical _ ⟨false, true, true, []⟩ rfl (Or.inr rfl)

/-! ## C4: unknown flags versus missing positional (corrected)

The claim says an unknown flag produces the usage message with no other
error text.  In the code, `opts.parse` fails on an unknown flag and `run`
returns `(1, Some(error text))` without calling `print_usage`: an error
message is printed to standard error and no usage text appears.  Only the
missing-positional half of the claim holds as stated. -/

/-- C4 counterexample: on `--bogus p` the program emits the parser's error
message and does not print the usage text (the claim asserts the opposite:
usage text and no error message). -/
theorem unknown_flag_counterexample :
    (runModel { envBase with args := ["--bogus", "p"] }).1 =
      .exited 1 (some (GetoptsError.message (.unrecognizedOption "bogus"))) ∧
    (runModel { envBase with args := ["--bogus", "p"] }).2.1 = [] ∧
    Event.printUsage ∉ (runModel { envBase with args := ["--bogus", "p"] }).2.1 := by
  refine ⟨rfl, rfl, ?_⟩
  have h : (runModel { envBase with args := ["--bogus", "p"] }).2.1 = [] := rfl
  rw [h]
  exact List.not_mem_nil _

/-- C4 (amended): an argument list that fails to parse (e.g. containing an
unknown flag) yields exit code 1 with the parser's error message and no
usage text and no other effect; an argument list that parses successfully
but has no positional argument yields the usage text, exit code 1 and no
error message. -/
theorem parse_error_and_missing_arg_behaviour :
    (∀ (env : Env) (e : GetoptsError),
        parseArgs env.args initMatches = .error e →
        runModel env = (.exited 1 (some e.message), [], env.cwd0)) ∧
    (∀ (env : Env) (m : Matches),
        parseArgs env.args initMatches = .ok m → m.help = false → m.free = [] →
        runModel env = (.exited 1 none, [Event.printUsage], env.cwd0)) := by
  constructor
  · intro env e h
    unfold runModel
    rw [h]
    rfl
  · intro env m h hh hf
    unfold runModel
    rw [h]
    unfold runAfterParse
    simp [hh, hf]

/-- Instantiation of the amended C4 at `--bogus p` and at an empty argument
list. -/
theorem parse_error_and_missing_arg_behaviour_witness :
    runModel { envBase with args := ["--bogus", "p"] } =
      (.exited 1 (some (GetoptsError.message (.unrecognizedOption "bogus"))), [], []) ∧
    runModel { envBase with args := [] } =
      (.exited 1 none, [Event.printUsage], []) := by
  constructor
  · exact parse_error_and_missing_arg_behaviour.1 _ (.unrecognizedOption "bogus") rfl
  · exact parse_error_and_missing_arg_behaviour.2 _ ⟨false, false, false, []⟩ rfl rfl rfl

/-! ## C6: the project inspector -/

/-- C6: on a successful read the inspector reports `has_sanitize = true`
exactly when the literal marker occurs contiguously in the text; when the
open/read fails, the run exits with code 1 and a message naming the project
directory and the underlying cause, after only reading metadata and
attempting to read `CMakeLists.txt` — in particular no directory is ever
created. -/
theorem inspector_marker_and_failure :
    (∀ text : String,
        (parse_cmakelists_txt (.ok text) = .ok ⟨true⟩ ↔
          ∃ l r, text.data = l ++ sanitizeMarker.data ++ r)) ∧
    (∀ (env : Env) (m : Matches) (arg cause : String),
        parseArgs env.args initMatches = .ok m → m.help = false →
        m.free.head? = some arg → env.projMetadata = .ok () →
        env.cmakeLists = .error cause →
        runModel env =
          (.exited 1 (some (cmakeListsErrMsg (env.cwd0 ++ [arg]) cause)),
           [Event.getMetadata (env.cwd0 ++ [arg]),
            Event.openRead (env.cwd0 ++ [arg] ++ ["CMakeLists.txt"])],
           env.cwd0) ∧
        containsSub (cmakeListsErrMsg (env.cwd0 ++ [arg]) cause)
          (pathStr (env.cwd0 ++ [arg])) = true ∧
        containsSub (cmakeListsErrMsg (env.cwd0 ++ [arg]) cause) cause = true ∧
        ∀ ev ∈ (runModel env).2.1, ev.isReadOnly = true) := by
  constructor
  · intro text
    rw [← containsSub_iff]
    unfold parse_cmakelists_txt
    simp
  · intro env m arg cause hp hh hhead hmeta hcl
    have hrun : runModel env =
        (.exited 1 (some (cmakeListsErrMsg (env.cwd0 ++ [arg]) cause)),
         [Event.getMetadata (env.cwd0 ++ [arg]),
          Event.openRead (env.cwd0 ++ [arg] ++ ["CMakeLists.txt"])],
         env.cwd0) := by
      unfold runModel
      rw [hp]
      unfold runAfterParse
      rw [hmeta, hcl]
      simp [hh, hhead, parse_cmakelists_txt]
    refine ⟨hrun, ?_, ?_, ?_⟩
    · rw [containsSub_iff]
      exact ⟨"Failed to open CMakeLists.txt in ".data ++ "\"".data,
        "\"".data ++ ": ".data ++ cause.data, by simp [cmakeListsErrMsg, quoted]⟩
    · rw [containsSub_iff]
      refine ⟨"Failed to open CMakeLists.txt in ".data ++ "\"".data ++
        (pathStr (env.cwd0 ++ [arg])).data ++ "\"".data ++ ": ".data, [], ?_⟩
      simp [cmakeListsErrMsg, quoted]
    · intro ev hev
      rw [hrun] at hev
      simp only [List.mem_cons, List.not_mem_nil, or_false] at hev
      rcases hev with h | h <;> subst h <;> rfl

/-- Instantiation of C6: a text containing the marker is detected, one
without it is not, and a failed read of CMakeLists.txt aborts the run with
the message naming the directory, before any directory creation. -/
theorem inspector_marker_and_failure_witness :
    parse_cmakelists_txt (.ok ("x" ++ sanitizeMarker ++ "y")) = .ok ⟨true⟩ ∧
    runModel { envBase with cmakeLists := .error "permission denied" } =
      (.exited 1 (some (cmakeListsErrMsg ["p"] "permission denied")),
       [Event.getMetadata ["p"], Event.openRead ["p", "CMakeLists.txt"]],
       []) := by
  constructor
  · exact (inspector_marker_and_failure.1 ("x" ++ sanitizeMarker ++ "y")).mpr
      ⟨"x".data, "y".data, by simp⟩
  · exact (inspector_marker_and_failure.2
      { envBase with cmakeLists := .error "permission denied" }
      ⟨false, false, false, ["p"]⟩ "p" "permission denied" rfl rfl rfl rfl rfl).1

/-! ## C7: pre-existing build directory -/

/-- C7: when `build-<arg>` already exists, the run stops with exit code 1
and a message naming that directory; the whole trace consists of reads and
existence checks only — no directory creation, no working-directory change,
no subprocess. -/
theorem build_dir_exists_refusal (env : Env) (m : Matches) (arg content : String)
    (hp : parseArgs env.args initMatches = .ok m) (hh : m.help = false)
    (hhead : m.free.head? = some arg) (hmeta : env.projMetadata = .ok ())
    (hcl : env.cmakeLists = .ok content) (hbd : env.buildDirExists = true) :
    runModel env =
      (.exited 1 (some (buildDirExistsMsg ("build-" ++ arg))),
       [Event.getMetadata (env.cwd0 ++ [arg]),
        Event.openRead (env.cwd0 ++ [arg] ++ ["CMakeLists.txt"]),
        Event.checkExists (env.cwd0 ++ ["build-" ++ arg])],
       env.cwd0) ∧
    (∀ ev ∈ (runModel env).2.1, ev.isReadOnly = true) ∧
    containsSub (buildDirExistsMsg ("build-" ++ arg)) ("build-" ++ arg) = true := by
  have hrun : runModel env =
      (.exited 1 (some (buildDirExistsMsg ("build-" ++ arg))),
       [Event.getMetadata (env.cwd0 ++ [arg]),
        Event.openRead (env.cwd0 ++ [arg] ++ ["CMakeLists.txt"]),
        Event.checkExists (env.cwd0 ++ ["build-" ++ arg])],
       env.cwd0) := by
    unfold runModel
    rw [hp]
    unfold runAfterParse
    rw [hmeta, hcl]
    simp [hh, hhead, parse_cmakelists_txt, hbd]
  refine ⟨hrun, ?_, ?_⟩
  · intro ev hev
    rw [hrun] at hev
    simp only [List.mem_cons, List.not_mem_nil, or_false] at hev
    rcases hev with h | h | h <;> subst h <;> rfl
  · rw [containsSub_iff]
    refine ⟨"The build directory (".data ++ "\"".data,
      "\"".data ++ ") already exists. Delete it first.".data, ?_⟩
    simp [buildDirExistsMsg, quoted]

/-- Instantiation of C7 at a fresh environment whose `build-p` directory
already exists. -/
theorem build_dir_exists_refusal_witness :
    runModel { envBase with buildDirExists := true } =
      (.exited 1 (some (buildDirExistsMsg "build-p")),
       [Event.getMetadata ["p"], Event.openRead ["p", "CMakeLists.txt"],
        Event.checkExists ["build-p"]],
       []) := by
  exact (build_dir_exists_refusal { envBase with buildDirExists := true }
    ⟨false, false, false, ["p"]⟩ "p" "" rfl rfl rfl rfl rfl rfl).1

/-! ## The configuration loop -/

/-- `create_config` when the subdirectory creation succeeds. -/
theorem create_config_ok (c : Config) (bs : BuildSystem) (p : String)
    (createDirOk : List String → Bool) (st : Bool) (cwd : List String)
    (h : createDirOk (cwd ++ [c.name]) = true) :
    create_config c bs p createDirOk st cwd =
      (some st,
       [Event.createDir (cwd ++ [c.name]), Event.setCurrentDir (cwd ++ [c.name]),
        Event.runCmake (cmakeInvocation c bs p), Event.setCurrentDir cwd],
       cwd) := by
  unfold create_config
  simp [h]

/-- `create_config` when the subdirectory creation fails: the panic. -/
theorem create_config_panics (c : Config) (bs : BuildSystem) (p : String)
    (createDirOk : List String → Bool) (st : Bool) (cwd : List String)
    (h : createDirOk (cwd ++ [c.name]) = false) :
    create_config c bs p createDirOk st cwd =
      (none, [Event.createDir (cwd ++ [c.name])], cwd) := by
  unfold create_config
  simp [h]

/-- When every directory creation succeeds, the cmake invocations before
index `k` succeed and the one at index `k` fails, the loop stops without
panicking, restores the working directory to its entry value, and the cmake
invocations performed are exactly those of the first `k + 1`
configurations. -/
theorem runLoop_halts_on_failure (bs : BuildSystem) (p : String)
    (createDirOk : List String → Bool) (cmakeOk : Nat → Bool)
    (hc : ∀ q, createDirOk q = true) :
    ∀ (cfgs : List Config) (cwd : List String) (k0 k : Nat),
      k < cfgs.length →
      (∀ j, j < k → cmakeOk (k0 + j) = true) →
      cmakeOk (k0 + k) = false →
      (runLoop bs p createDirOk cmakeOk cfgs cwd k0).panicked = false ∧
      (runLoop bs p createDirOk cmakeOk cfgs cwd k0).cwd = cwd ∧
      (runLoop bs p createDirOk cmakeOk cfgs cwd k0).events.filter Event.isRunCmake =
        (cfgs.take (k + 1)).map (fun c => Event.runCmake (cmakeInvocation c bs p)) := by
  intro cfgs
  induction cfgs with
  | nil =>
      intro cwd k0 k hk
      exact absurd hk (by simp)
  | cons c rest ih =>
      intro cwd k0 k hk hpre hfail
      cases k with
      | zero =>
          rw [Nat.add_zero] at hfail
          simp only [runLoop]
          rw [create_config_ok c bs p createDirOk (cmakeOk k0) cwd (hc _)]
          simp [hfail, Event.isRunCmake]
      | succ k2 =>
          have h0 : cmakeOk k0 = true := by
            have := hpre 0 (Nat.succ_pos k2)
            simpa using this
          have hk2 : k2 < rest.length := by
            simp only [List.length_cons] at hk
            omega
          have hpre2 : ∀ j, j < k2 → cmakeOk (k0 + 1 + j) = true := by
            intro j hj
            have := hpre (j + 1) (by omega)
            rwa [show k0 + (j + 1) = k0 + 1 + j by omega] at this
          have hfail2 : cmakeOk (k0 + 1 + k2) = false := by
            rwa [show k0 + (k2 + 1) = k0 + 1 + k2 by omega] at hfail
          obtain ⟨ih1, ih2, ih3⟩ := ih cwd (k0 + 1) k2 hk2 hpre2 hfail2
          simp only [runLoop]
          rw [create_config_ok c bs p createDirOk (cmakeOk k0) cwd (hc _)]
          simp only [h0, if_true]
          refine ⟨ih1, ih2, ?_⟩
          simp [List.filter_append, Event.isRunCmake, ih3]

/-- The run up to and including build-directory creation, when every check
passes: what remains is the configuration loop, whose outcome decides the
final state. -/
theorem runModel_happy (env : Env) (m : Matches) (arg content : String)
    (hp : parseArgs env.args initMatches = .ok m) (hh : m.help = false)
    (hhead : m.free.head? = some arg) (hmeta : env.projMetadata = .ok ())
    (hcl : env.cmakeLists = .ok content) (hbd : env.buildDirExists = false)
    (hcreate : env.createDirOk (env.cwd0 ++ ["build-" ++ arg]) = true) :
    runModel env =
      ((if (runLoop (if m.noNinja then BuildSystem.Make else BuildSystem.Ninja)
            (pathStr (env.cwd0 ++ [arg])) env.createDirOk env.cmakeSuccess
            (enumerateConfigs ⟨containsSub content sanitizeMarker⟩ m.noSanitize)
            (env.cwd0 ++ ["build-" ++ arg]) 0).panicked
        then Outcome.panicked else Outcome.exited 0 none),
       [Event.getMetadata (env.cwd0 ++ [arg]),
        Event.openRead (env.cwd0 ++ [arg] ++ ["CMakeLists.txt"]),
        Event.checkExists (env.cwd0 ++ ["build-" ++ arg]),
        Event.createDir (env.cwd0 ++ ["build-" ++ arg]),
        Event.setCurrentDir (env.cwd0 ++ ["build-" ++ arg])] ++
          (runLoop (if m.noNinja then BuildSystem.Make else BuildSystem.Ninja)
            (pathStr (env.cwd0 ++ [arg])) env.createDirOk env.cmakeSuccess
            (enumerateConfigs ⟨containsSub content sanitizeMarker⟩ m.noSanitize)
            (env.cwd0 ++ ["build-" ++ arg]) 0).events,
       (runLoop (if m.noNinja then BuildSystem.Make else BuildSystem.Ninja)
          (pathStr (env.cwd0 ++ [arg])) env.createDirOk env.cmakeSuccess
          (enumerateConfigs ⟨containsSub content sanitizeMarker⟩ m.noSanitize)
          (env.cwd0 ++ ["build-" ++ arg]) 0).cwd) := by
  unfold runModel
  rw [hp]
  unfold runAfterParse
  rw [hmeta, hcl]
  simp [hh, hhead, parse_cmakelists_txt, hbd, hcreate]
  split <;> split <;> rfl

/-! ## C2: a failing cmake short-circuits the loop -/

/-- C2: in a run that reaches the loop with every directory creation
succeeding, if the cmake invocations for the configurations before index
`k` (0-indexed) succeed and the one at `k` exits non-zero, then cmake is
invoked exactly for configurations 0..k — the ones after `k` are never
invoked — the working directory ends back at the build-directory root, and
the program still exits with code 0. -/
theorem subprocess_failure_short_circuits (env : Env) (m : Matches)
    (arg content : String) (k : Nat)
    (hp : parseArgs env.args initMatches = .ok m) (hh : m.help = false)
    (hhead : m.free.head? = some arg) (hmeta : env.projMetadata = .ok ())
    (hcl : env.cmakeLists = .ok content) (hbd : env.buildDirExists = false)
    (hcall : ∀ q, env.createDirOk q = true)
    (hk : k < (enumerateConfigs ⟨containsSub content sanitizeMarker⟩ m.noSanitize).length)
    (hbefore : ∀ j, j < k → env.cmakeSuccess j = true)
    (hfailk : env.cmakeSuccess k = false) :
    (runModel env).1 = .exited 0 none ∧
    (runModel env).2.2 = env.cwd0 ++ ["build-" ++ arg] ∧
    (runModel env).2.1.filter Event.isRunCmake =
      ((enumerateConfigs ⟨containsSub content sanitizeMarker⟩ m.noSanitize).take (k + 1)).map
        (fun c => Event.runCmake (cmakeInvocation c
          (if m.noNinja then BuildSystem.Make else BuildSystem.Ninja)
          (pathStr (env.cwd0 ++ [arg])))) := by
  obtain ⟨hb1, hb2, hb3⟩ :=
    runLoop_halts_on_failure
      (if m.noNinja then BuildSystem.Make else BuildSystem.Ninja)
      (pathStr (env.cwd0 ++ [arg])) env.createDirOk env.cmakeSuccess hcall
      (enumerateConfigs ⟨containsSub content sanitizeMarker⟩ m.noSanitize)
      (env.cwd0 ++ ["build-" ++ arg]) 0 k hk
      (fun j hj => by simpa using hbefore j hj) (by simpa using hfailk)
  rw [runModel_happy env m arg content hp hh hhead hmeta hcl hbd (hcall _)]
  refine ⟨by simp [hb1], hb2, ?_⟩
  rw [List.filter_append, hb3]
  rfl

/-- Instantiation of C2 in an environment whose very first cmake invocation
fails: the run exits 0 after exactly one cmake invocation and the working
directory is back at the build root. -/
theorem subprocess_failure_short_circuits_witness :
    (runModel { envBase with cmakeSuccess := fun _ => false }).1 = .exited 0 none ∧
    (runModel { envBase with cmakeSuccess := fun _ => false }).2.2 = ["build-p"] ∧
    ((runModel { envBase with cmakeSuccess := fun _ => false }).2.1.filter
      Event.isRunCmake).length = 1 := by
  obtain ⟨h1, h2, h3⟩ := subprocess_failure_short_circuits
    { envBase with cmakeSuccess := fun _ => false }
    ⟨false, false, false, ["p"]⟩ "p" "" 0 rfl rfl rfl rfl rfl rfl
    (fun _ => rfl) (by decide) (fun j hj => absurd hj (Nat.not_lt_zero j)) rfl
  refine ⟨h1, h2, ?_⟩
  rw [h3]
  rfl

/-! ## C3: failure to create a configuration subdirectory (corrected)

The claim says such a failure is handled as a graceful environment error:
one descriptive message naming the path, exit code 1.  In the code the
failure hits `fs::create_dir(&conf.name).unwrap()`, which panics: the
process aborts with the Rust panic exit code 101 and the runtime's panic
output, not a program-generated message naming the path, and not exit
code 1.  The no-retry / no-cleanup part of the claim does hold: the trace
ends at the single failed creation attempt. -/

/-- When the directory creations and cmake invocations for `pre` succeed
and the creation for `c` fails, the loop panics; its trace ends at the
failed `create_dir` attempt, which appears exactly once, and cmake ran only
for the configurations in `pre`. -/
theorem runLoop_panics_on_createdir (bs : BuildSystem) (p : String)
    (createDirOk : List String → Bool) (cmakeOk : Nat → Bool) :
    ∀ (pre : List Config) (c : Config) (post : List Config)
      (cwd : List String) (k0 : Nat),
      (∀ c2 ∈ pre, createDirOk (cwd ++ [c2.name]) = true) →
      (∀ j, j < pre.length → cmakeOk (k0 + j) = true) →
      createDirOk (cwd ++ [c.name]) = false →
      (runLoop bs p createDirOk cmakeOk (pre ++ c :: post) cwd k0).panicked = true ∧
      (runLoop bs p createDirOk cmakeOk (pre ++ c :: post) cwd k0).events.getLast? =
        some (Event.createDir (cwd ++ [c.name])) ∧
      (runLoop bs p createDirOk cmakeOk (pre ++ c :: post) cwd k0).events.filter
        Event.isRunCmake =
        pre.map (fun c2 => Event.runCmake (cmakeInvocation c2 bs p)) ∧
      (runLoop bs p createDirOk cmakeOk (pre ++ c :: post) cwd k0).events.count
        (Event.createDir (cwd ++ [c.name])) = 1 := by
  intro pre
  induction pre with
  | nil =>
      intro c post cwd k0 hpre hcm hfail
      simp only [List.nil_append, runLoop]
      rw [create_config_panics c bs p createDirOk (cmakeOk k0) cwd hfail]
      refine ⟨rfl, rfl, rfl, ?_⟩
      simp [List.count_cons]
  | cons c2 pre2 ih =>
      intro c post cwd k0 hpre hcm hfail
      have hc2 : createDirOk (cwd ++ [c2.name]) = true := hpre c2 (by simp)
      have h0 : cmakeOk k0 = true := by simpa using hcm 0 (by simp)
      have hne : cwd ++ [c2.name] ≠ cwd ++ [c.name] := by
        intro he
        have : c2.name = c.name := by simpa using List.append_cancel_left he
        rw [← this] at hfail
        rw [hc2] at hfail
        exact Bool.noConfusion hfail
      obtain ⟨ih1, ih2, ih3, ih4⟩ := ih c post cwd (k0 + 1)
        (fun x hx => hpre x (by simp [hx]))
        (fun j hj => by
          have h2 := hcm (j + 1) (by simpa using Nat.succ_lt_succ hj)
          rwa [show k0 + (j + 1) = k0 + 1 + j by omega] at h2)
        hfail
      have hnenil : (runLoop bs p createDirOk cmakeOk (pre2 ++ c :: post) cwd
          (k0 + 1)).events ≠ [] := by
        intro he
        rw [he] at ih2
        exact Option.noConfusion ih2
      simp only [List.cons_append, runLoop]
      rw [create_config_ok c2 bs p createDirOk (cmakeOk k0) cwd hc2]
      simp only [h0, if_true]
      refine ⟨ih1, ?_, ?_, ?_⟩
      · simp only [List.nil_append, List.append_eq]
        rw [← List.cons_append, List.getLast?_append_of_ne_nil _ hnenil]
        exact ih2
      · simp [List.filter_append, ih3, Event.isRunCmake]
      · simp [List.count_cons, List.count_append, ih4, hne, Ne.symm hne]

/-- C3 counterexample: in an environment where creating the first
configuration subdirectory `build-p/GCC-Debug` fails, the program does not
exit with code 1 and a message — it panics, terminating with exit
code 101. -/
theorem create_dir_failure_counterexample :
    (runModel { envBase with
        createDirOk := fun q => !(q == ["build-p", "GCC-Debug"]) }).1 =
      .panicked ∧
    Outcome.exitCode (runModel { envBase with
        createDirOk := fun q => !(q == ["build-p", "GCC-Debug"]) }).1 = 101 := by
  exact ⟨rfl, rfl⟩

/-- C3 (amended): if, after `pre` configurations succeed, creating the next
configuration's subdirectory fails, the program aborts by panic — process
exit code 101, not a graceful exit-1 with a message — with no retry (the
failed creation attempt is the last event and occurs exactly once) and no
cleanup, and the remaining configurations are never processed (cmake ran
only for `pre`). -/
theorem create_dir_failure_panics (env : Env) (m : Matches)
    (arg content : String) (pre : List Config) (c : Config) (post : List Config)
    (hp : parseArgs env.args initMatches = .ok m) (hh : m.help = false)
    (hhead : m.free.head? = some arg) (hmeta : env.projMetadata = .ok ())
    (hcl : env.cmakeLists = .ok content) (hbd : env.buildDirExists = false)
    (hcfg : enumerateConfigs ⟨containsSub content sanitizeMarker⟩ m.noSanitize =
      pre ++ c :: post)
    (hbuild : env.createDirOk (env.cwd0 ++ ["build-" ++ arg]) = true)
    (hpre : ∀ c2 ∈ pre,
      env.createDirOk (env.cwd0 ++ ["build-" ++ arg] ++ [c2.name]) = true)
    (hcm : ∀ j, j < pre.length → env.cmakeSuccess j = true)
    (hfail : env.createDirOk (env.cwd0 ++ ["build-" ++ arg] ++ [c.name]) = false) :
    (runModel env).1 = .panicked ∧
    Outcome.exitCode (runModel env).1 = 101 ∧
    (runModel env).2.1.getLast? =
      some (Event.createDir (env.cwd0 ++ ["build-" ++ arg] ++ [c.name])) ∧
    (runModel env).2.1.count
      (Event.createDir (env.cwd0 ++ ["build-" ++ arg] ++ [c.name])) = 1 ∧
    (runModel env).2.1.filter Event.isRunCmake =
      pre.map (fun c2 => Event.runCmake (cmakeInvocation c2
        (if m.noNinja then BuildSystem.Make else BuildSystem.Ninja)
        (pathStr (env.cwd0 ++ [arg])))) := by
  obtain ⟨hb1, hb2, hb3, hb4⟩ :=
    runLoop_panics_on_createdir
      (if m.noNinja then BuildSystem.Make else BuildSystem.Ninja)
      (pathStr (env.cwd0 ++ [arg])) env.createDirOk env.cmakeSuccess
      pre c post (env.cwd0 ++ ["build-" ++ arg]) 0 hpre
      (fun j hj => by simpa using hcm j hj) hfail
  rw [← hcfg] at hb1 hb2 hb3 hb4
  rw [runModel_happy env m arg content hp hh hhead hmeta hcl hbd hbuild]
  have hnenil : (runLoop (if m.noNinja then BuildSystem.Make else BuildSystem.Ninja)
      (pathStr (env.cwd0 ++ [arg])) env.createDirOk env.cmakeSuccess
      (enumerateConfigs ⟨containsSub content sanitizeMarker⟩ m.noSanitize)
      (env.cwd0 ++ ["build-" ++ arg]) 0).events ≠ [] := by
    intro he
    rw [he] at hb2
    exact Option.noConfusion hb2
  refine ⟨by simp [hb1], by simp [hb1, Outcome.exitCode], ?_, ?_, ?_⟩
  · rw [List.getLast?_append_of_ne_nil _ hnenil]
    exact hb2
  · simp only [List.count_append, hb4]
    have hne : ∀ q : List String, q ++ ["build-" ++ arg] ≠
        q ++ ["build-" ++ arg] ++ [c.name] := by
      intro q he
      have := congrArg List.length he
      simp at this
    simp [List.count_cons, hne env.cwd0]
  · simp only [List.filter_append, hb3]
    simp [Event.isRunCmake]

/-- Instantiation of the amended C3: with `build-p/GCC-Debug` uncreatable,
the run panics (exit code 101), its last event is the failed creation
attempt, which happened exactly once, and no cmake invocation took
place. -/
theorem create_dir_failure_panics_witness :
    (runModel { envBase with
        createDirOk := fun q => !(q == ["build-p", "GCC-Debug"]) }).1 = .panicked ∧
    (runModel { envBase with
        createDirOk := fun q => !(q == ["build-p", "GCC-Debug"]) }).2.1.getLast? =
      some (Event.createDir ["build-p", "GCC-Debug"]) ∧
    (runModel { envBase with
        createDirOk := fun q => !(q == ["build-p", "GCC-Debug"]) }).2.1.filter
      Event.isRunCmake = [] := by
  obtain ⟨h1, h2, h3, h4, h5⟩ := create_dir_failure_panics
    { envBase with createDirOk := fun q => !(q == ["build-p", "GCC-Debug"]) }
    ⟨false, false, false, ["p"]⟩ "p" "" []
    (config "Debug" .Gcc .Debug [])
    [ config "Release" .Gcc .Release []
    , config "Debug" .Clang .Debug []
    , config "Release" .Clang .Release [] ]
    rfl rfl rfl rfl rfl rfl (by decide) rfl
    (fun c2 hc2 => absurd hc2 (List.not_mem_nil c2))
    (fun j hj => absurd hj (Nat.not_lt_zero j)) rfl
  exact ⟨h1, h3, h5⟩

/-! ## C8: the `--no-ninja` flag changes only the selector argument -/

/-- An event that is not a cmake invocation agrees with itself. -/
theorem eventAgrees_refl (e : Event) (he : e.isRunCmake = false) :
    eventAgrees e e := by
  cases e <;> first
    | rfl
    | simp [Event.isRunCmake] at he

/-- A list with no cmake invocations agrees with itself pointwise. -/
theorem forall₂_agrees_refl :
    ∀ l : List Event, (∀ e ∈ l, e.isRunCmake = false) →
      List.Forall₂ eventAgrees l l
  | [], _ => .nil
  | e :: l, h =>
      .cons (eventAgrees_refl e (h e (by simp)))
        (forall₂_agrees_refl l (fun x hx => h x (by simp [hx])))

/-- The cmake invocations for one configuration under Ninja and under Make
agree everywhere except at position 2, which carries the respective
build-system selector. -/
theorem cmakeInvocation_selector (c : Config) (p : String) :
    eventAgrees (Event.runCmake (cmakeInvocation c .Ninja p))
      (Event.runCmake (cmakeInvocation c .Make p)) := by
  refine ⟨⟨rfl, ?_⟩, ?_, ?_⟩
  · intro i hi
    match i with
    | 0 => simp [cmakeInvocation]
    | 1 => simp [cmakeInvocation]
    | 2 => exact absurd rfl hi
    | (n + 3) => simp [cmakeInvocation]
  · simp [cmakeInvocation]
  · simp [cmakeInvocation]

/-- The configuration loop behaves identically under Ninja and Make —
same panic status, same final directory — and its traces agree pointwise
up to the selector argument of each cmake invocation. -/
theorem runLoop_selector_only (p : String) (createDirOk : List String → Bool)
    (cmakeOk : Nat → Bool) :
    ∀ (cfgs : List Config) (cwd : List String) (k : Nat),
      (runLoop .Ninja p createDirOk cmakeOk cfgs cwd k).panicked =
        (runLoop .Make p createDirOk cmakeOk cfgs cwd k).panicked ∧
      (runLoop .Ninja p createDirOk cmakeOk cfgs cwd k).cwd =
        (runLoop .Make p createDirOk cmakeOk cfgs cwd k).cwd ∧
      List.Forall₂ eventAgrees
        (runLoop .Ninja p createDirOk cmakeOk cfgs cwd k).events
        (runLoop .Make p createDirOk cmakeOk cfgs cwd k).events := by
  intro cfgs
  induction cfgs with
  | nil => intro cwd k; exact ⟨rfl, rfl, .nil⟩
  | cons c rest ih =>
      intro cwd k
      by_cases h : createDirOk (cwd ++ [c.name]) = true
      · simp only [runLoop]
        rw [create_config_ok c .Ninja p createDirOk (cmakeOk k) cwd h,
          create_config_ok c .Make p createDirOk (cmakeOk k) cwd h]
        dsimp only
        cases hs : cmakeOk k
        · simp only [Bool.false_eq_true, if_false]
          refine ⟨trivial, trivial, ?_⟩
          simp only [List.singleton_append]
          exact .cons (eventAgrees_refl _ (by rfl))
            (.cons (eventAgrees_refl _ (by rfl))
              (.cons (eventAgrees_refl _ (by rfl))
                (.cons (cmakeInvocation_selector c p)
                  (.cons (eventAgrees_refl _ (by rfl)) .nil))))
        · simp only [if_true]
          obtain ⟨ih1, ih2, ih3⟩ := ih cwd (k + 1)
          refine ⟨ih1, ih2, ?_⟩
          refine List.rel_append (.cons (eventAgrees_refl _ (by rfl)) .nil) ?_
          exact List.rel_append
            (.cons (eventAgrees_refl _ (by rfl))
              (.cons (eventAgrees_refl _ (by rfl))
                (.cons (cmakeInvocation_selector c p)
                  (.cons (eventAgrees_refl _ (by rfl)) .nil)))) ih3
      · rw [Bool.not_eq_true] at h
        simp only [runLoop]
        rw [create_config_panics c .Ninja p createDirOk (cmakeOk k) cwd h,
          create_config_panics c .Make p createDirOk (cmakeOk k) cwd h]
        dsimp only
        refine ⟨rfl, rfl, ?_⟩
        exact .cons (eventAgrees_refl _ (by rfl)) (.cons (eventAgrees_refl _ (by rfl)) .nil)

/-- Appending `--no-ninja` to an argument list that contains no `--`
terminator parses exactly as the original list with the `noNinja` flag
set. -/
theorem parseArgs_append_noNinja :
    ∀ (xs : List String) (m : Matches), "--" ∉ xs →
      parseArgs (xs ++ ["--no-ninja"]) m =
        (parseArgs xs m).map (fun m2 => { m2 with noNinja := true }) := by
  intro xs
  induction xs with
  | nil =>
      intro m _
      rfl
  | cons a xs ih =>
      intro m hmem
      have ha : a ≠ "--" := fun he => hmem (he ▸ List.mem_cons_self a xs)
      have hxs : "--" ∉ xs := fun hx => hmem (List.mem_cons_of_mem a hx)
      simp only [List.cons_append, parseArgs]
      split
      · rename_i x heq
        exfalso
        apply ha
        have he2 : a = String.mk a.data := rfl
        rw [he2, heq]
      · rename_i x c cs heq
        cases hl : longFlag (String.mk (c :: cs)) m with
        | ok m2 => simp only [hl]; exact ih m2 hxs
        | error e => simp only [hl]; rfl
      · rename_i c cs hh1 hh2 heq
        cases hl : shortFlags (c :: cs) m with
        | ok m2 => simp only [hl]; exact ih m2 hxs
        | error e => simp only [hl]; rfl
      · exact ih _ hxs

/-- The part of the run after parsing behaves the same with and without
`noNinja`: same outcome shape, same final directory, and traces that agree
pointwise except at the selector argument of each cmake invocation. -/
theorem runAfterParse_selector (env : Env) (m : Matches) (h : m.noNinja = false) :
    (runAfterParse env (.ok m)).1 =
      (runAfterParse env (.ok { m with noNinja := true })).1 ∧
    (runAfterParse env (.ok m)).2.2 =
      (runAfterParse env (.ok { m with noNinja := true })).2.2 ∧
    List.Forall₂ eventAgrees (runAfterParse env (.ok m)).2.1
      (runAfterParse env (.ok { m with noNinja := true })).2.1 := by
  unfold runAfterParse
  dsimp only
  cases hh : m.help
  case true =>
    simp only [hh]
    exact ⟨rfl, rfl, .cons (eventAgrees_refl _ (by rfl)) .nil⟩
  case false =>
  simp only [hh]
  cases hf : m.free.head?
  case none =>
    exact ⟨rfl, rfl, .cons (eventAgrees_refl _ (by rfl)) .nil⟩
  case some arg =>
  cases hm2 : env.projMetadata
  case error e =>
    exact ⟨rfl, rfl, .cons (eventAgrees_refl _ (by rfl)) .nil⟩
  case ok u =>
  cases hc : parse_cmakelists_txt env.cmakeLists
  case error e =>
    exact ⟨rfl, rfl,
      .cons (eventAgrees_refl _ (by rfl)) (.cons (eventAgrees_refl _ (by rfl)) .nil)⟩
  case ok props =>
  cases hbd : env.buildDirExists
  case true =>
    simp only [if_true]
    exact ⟨trivial, trivial,
      .cons (eventAgrees_refl _ (by rfl)) (.cons (eventAgrees_refl _ (by rfl))
        (.cons (eventAgrees_refl _ (by rfl)) .nil))⟩
  case false =>
  simp only [Bool.false_eq_true, if_false]
  cases hcd : env.createDirOk (env.cwd0 ++ ["build-" ++ arg])
  case false =>
    simp only [Bool.false_eq_true, if_false]
    exact ⟨trivial, trivial,
      .cons (eventAgrees_refl _ (by rfl)) (.cons (eventAgrees_refl _ (by rfl))
        (.cons (eventAgrees_refl _ (by rfl))
          (.cons (eventAgrees_refl _ (by rfl)) .nil)))⟩
  case true =>
  simp only [if_true, h, Bool.false_eq_true, if_false]
  obtain ⟨l1, l2, l3⟩ := runLoop_selector_only (pathStr (env.cwd0 ++ [arg]))
    env.createDirOk env.cmakeSuccess
    (enumerateConfigs props m.noSanitize) (env.cwd0 ++ ["build-" ++ arg]) 0
  rw [l1]
  have hev : List.Forall₂ eventAgrees
      ([Event.getMetadata (env.cwd0 ++ [arg]),
        Event.openRead (env.cwd0 ++ [arg] ++ ["CMakeLists.txt"]),
        Event.checkExists (env.cwd0 ++ ["build-" ++ arg]),
        Event.createDir (env.cwd0 ++ ["build-" ++ arg]),
        Event.setCurrentDir (env.cwd0 ++ ["build-" ++ arg])] ++
        (runLoop BuildSystem.Ninja (pathStr (env.cwd0 ++ [arg])) env.createDirOk
          env.cmakeSuccess (enumerateConfigs props m.noSanitize)
          (env.cwd0 ++ ["build-" ++ arg]) 0).events)
      ([Event.getMetadata (env.cwd0 ++ [arg]),
        Event.openRead (env.cwd0 ++ [arg] ++ ["CMakeLists.txt"]),
        Event.checkExists (env.cwd0 ++ ["build-" ++ arg]),
        Event.createDir (env.cwd0 ++ ["build-" ++ arg]),
        Event.setCurrentDir (env.cwd0 ++ ["build-" ++ arg])] ++
        (runLoop BuildSystem.Make (pathStr (env.cwd0 ++ [arg])) env.createDirOk
          env.cmakeSuccess (enumerateConfigs props m.noSanitize)
          (env.cwd0 ++ ["build-" ++ arg]) 0).events) := by
    refine List.rel_append ?_ l3
    exact .cons (eventAgrees_refl _ (by rfl)) (.cons (eventAgrees_refl _ (by rfl))
      (.cons (eventAgrees_refl _ (by rfl)) (.cons (eventAgrees_refl _ (by rfl))
        (.cons (eventAgrees_refl _ (by rfl)) .nil))))
  cases hpk : (runLoop BuildSystem.Make (pathStr (env.cwd0 ++ [arg]))
      env.createDirOk env.cmakeSuccess (enumerateConfigs props m.noSanitize)
      (env.cwd0 ++ ["build-" ++ arg]) 0).panicked
  · simp only [hpk, Bool.false_eq_true, if_false]
    exact ⟨trivial, l2, hev⟩
  · simp only [hpk, if_true]
    exact ⟨trivial, l2, hev⟩

/-- C8: for two runs whose argument lists differ only in appending
`--no-ninja` (both parse successfully, the original without the flag), the
arguments parse to the same matches except for the flag, the enumerated
configuration list is untouched (it never depends on the flag), the
outcome and final directory are identical, and the two traces agree
pointwise, differing only in the build-system selector argument of each
cmake invocation — Ninja-based without the flag, Makefiles-based with
it. -/
theorem no_ninja_changes_only_selector (env : Env) (m : Matches)
    (hdd : "--" ∉ env.args)
    (hp : parseArgs env.args initMatches = .ok m) (h : m.noNinja = false) :
    parseArgs (env.args ++ ["--no-ninja"]) initMatches =
      .ok { m with noNinja := true } ∧
    (∀ props : CMakeListsProperties,
      enumerateConfigs props m.noSanitize =
        enumerateConfigs props ({ m with noNinja := true }).noSanitize) ∧
    (runModel env).1 =
      (runModel { env with args := env.args ++ ["--no-ninja"] }).1 ∧
    (runModel env).2.2 =
      (runModel { env with args := env.args ++ ["--no-ninja"] }).2.2 ∧
    List.Forall₂ eventAgrees (runModel env).2.1
      (runModel { env with args := env.args ++ ["--no-ninja"] }).2.1 := by
  have hparse : parseArgs (env.args ++ ["--no-ninja"]) initMatches =
      .ok { m with noNinja := true } := by
    rw [parseArgs_append_noNinja env.args initMatches hdd, hp]
    rfl
  have hrm : runModel { env with args := env.args ++ ["--no-ninja"] } =
      runAfterParse env (.ok { m with noNinja := true }) := by
    unfold runModel
    rw [show ({ env with args := env.args ++ ["--no-ninja"] } : Env).args =
      env.args ++ ["--no-ninja"] from rfl, hparse]
    rfl
  have hrm0 : runModel env = runAfterParse env (.ok m) := by
    unfold runModel
    rw [hp]
  obtain ⟨s1, s2, s3⟩ := runAfterParse_selector env m h
  rw [hrm, hrm0]
  exact ⟨hparse, fun _ => rfl, s1, s2, s3⟩

/-- Instantiation of C8: `p` versus `p --no-ninja` on the benign
environment — identical outcome, and the first cmake invocation's argv
differs exactly at the selector position. -/
theorem no_ninja_changes_only_selector_witness :
    parseArgs (["p"] ++ ["--no-ninja"]) initMatches =
      .ok ⟨false, false, true, ["p"]⟩ ∧
    (runModel envBase).1 =
      (runModel { envBase with args := ["p"] ++ ["--no-ninja"] }).1 := by
  obtain ⟨w1, w2, w3, w4, w5⟩ := no_ninja_changes_only_selector envBase
    ⟨false, false, false, ["p"]⟩ (by decide) rfl rfl
  exact ⟨w1, w3⟩
